import Mathlib

/-!
Verification of the rugwatcher-automator core against its specification.

The TypeScript sources are shallowly embedded: pure computations become
Lean functions, effectful pipelines become explicit state passing or
fuel-indexed loops, and fallible calls return `Except`/`Option`.
JavaScript numbers that only ever hold small exact integers or exact
ratios are modelled as `ℤ`/`ℚ`; token-account balances (read as signed
64-bit integers) are modelled as `ℤ`.  External collaborators
(RPC node, DEX aggregator, base58 codec, keypair construction) are
parameters of the embedded functions.
-/

namespace Rugwatcher

/-- Risk classification used throughout the analyzer
(the string union of LOW, MEDIUM and HIGH in the source). -/
inductive RiskLevel
  | LOW
  | MEDIUM
  | HIGH
deriving DecidableEq, Repr

/-- Holder-concentration classification from `analyzeHolderDistribution`. -/
inductive Concentration
  | HIGH
  | MEDIUM
  | LOW
deriving DecidableEq, Repr

/-- Record `TokenHolder` from `src/utils/tokenAnalysis.ts`: an address
together with the balance read at offset 64 of the account data
(`readBigInt64LE`, hence a signed integer). -/
structure TokenHolder where
  address : String
  amount : ℤ
deriving DecidableEq, Repr

/-- Result record of `analyzeHolderDistribution`. -/
structure HolderDist where
  uniqueHolders : ℕ
  maxHolderPercentage : ℚ
  concentration : Concentration
deriving DecidableEq, Repr

/-- Embedding of `analyzeHolderDistribution` from
`src/utils/tokenAnalysis.ts` (lines 36-56; the copy in
`unnamed/part_015` is identical).  Empty input short-circuits to
`{0, 0, HIGH}`; otherwise the maximal balance is divided by the total
supply.  `new Set(...).size` is the number of distinct addresses,
embedded as `List.dedup.length`. -/
def analyzeHolderDistribution (holders : List TokenHolder) : HolderDist :=
  if holders.isEmpty then ⟨0, 0, .HIGH⟩
  else
    let totalSupply : ℤ := (holders.map (·.amount)).sum
    let maxAmount : ℤ := ((holders.map (·.amount)).max?).getD 0
    let maxHolderPercentage : ℚ := ((maxAmount : ℚ) / (totalSupply : ℚ)) * 100
    let concentration : Concentration :=
      if maxHolderPercentage > 50 then .HIGH
      else if maxHolderPercentage > 25 then .MEDIUM
      else .LOW
    ⟨(holders.map (·.address)).dedup.length, maxHolderPercentage, concentration⟩

/-- Embedding of `calculateRiskLevel` from `src/utils/tokenAnalysis.ts`
(lines 118-134): count the true heuristic flags; at least 3 gives HIGH,
at least 1 gives MEDIUM, otherwise LOW. -/
def calculateRiskLevel (hasUnlimitedMint hasPausableTrading hasBlacklist
    hasOwnershipTransfer : Bool) : RiskLevel :=
  let riskFactors :=
    [hasUnlimitedMint, hasPausableTrading, hasBlacklist,
      hasOwnershipTransfer].filter (· = true) |>.length
  if riskFactors ≥ 3 then .HIGH
  else if riskFactors ≥ 1 then .MEDIUM
  else .LOW

/-- Boolean test that `pat` is a leading segment of the second list. -/
def charsHasPfx : List Char → List Char → Bool
  | [], _ => true
  | _ :: _, [] => false
  | p :: ps, c :: cs => p = c && charsHasPfx ps cs

/-- JavaScript `String.prototype.includes`: the list has `pat` as a
contiguous segment. -/
def charsHasSub (pat : List Char) : List Char → Bool
  | [] => charsHasPfx pat []
  | c :: cs => charsHasPfx pat (c :: cs) || charsHasSub pat cs

/-- JavaScript `hay.includes(pat)` for Lean strings. -/
def strIncludes (hay pat : String) : Bool :=
  charsHasSub pat.toList hay.toList

/-- Result record of `analyzeTokenContract`. -/
structure ContractAnalysis where
  hasUnlimitedMint : Bool
  hasPausableTrading : Bool
  hasBlacklist : Bool
  hasOwnershipTransfer : Bool
  riskLevel : RiskLevel
deriving DecidableEq, Repr

/-- Pattern-scanning core shared by both versions of
`analyzeTokenContract`: the four heuristic flags computed from the
textual representation of the contract data. -/
def contractFlags (s : String) : Bool × Bool × Bool × Bool :=
  let mintPats := ["mintTo", "mint(", "_mint", "createToken"]
  let pausePats := ["pause", "freeze", "suspend", "lock", "blacklist", "block"]
  let ownPats := ["transferOwnership", "setOwner", "changeOwner", "renounceOwnership"]
  let hasUnlimitedMint := mintPats.any (fun p =>
    strIncludes s p && !strIncludes s "maxSupply" && !strIncludes s "MAX_SUPPLY")
  let hasPausableTrading := pausePats.any (fun p => strIncludes s p)
  let hasBlacklist := strIncludes s "blacklist" || strIncludes s "blocklist" ||
    strIncludes s "denylist"
  let hasOwnershipTransfer := ownPats.any (fun p => strIncludes s p)
  (hasUnlimitedMint, hasPausableTrading, hasBlacklist, hasOwnershipTransfer)

/-- Success path of `analyzeTokenContract` from
`src/utils/tokenAnalysis.ts` (lines 58-105): the four scanned flags,
risk level derived by `calculateRiskLevel`. -/
def analyzeTokenContractScan (s : String) : ContractAnalysis :=
  let f := contractFlags s
  ⟨f.1, f.2.1, f.2.2.1, f.2.2.2, calculateRiskLevel f.1 f.2.1 f.2.2.1 f.2.2.2⟩

/-- Success path of `analyzeTokenContract` from `unnamed/part_015`
(lines 150-157): the same four scanned flags, but the returned
`riskLevel` is the constant HIGH (the source comments that HIGH is
always returned because these are all risky tokens). -/
def analyzeTokenContractScan15 (s : String) : ContractAnalysis :=
  let f := contractFlags s
  ⟨f.1, f.2.1, f.2.2.1, f.2.2.2, .HIGH⟩

/-- Catch path of `analyzeTokenContract` (both versions): worst-case
result when the program data cannot be fetched. -/
def contractAnalysisWorst : ContractAnalysis :=
  ⟨true, true, true, true, .HIGH⟩

/-- Record `TokenAnalysis` as assembled by `TokenAnalyzer.analyzeToken`
(`src/services/TokenAnalyzer.ts` lines 44-55).  The presentation-only
`details` string list is omitted. -/
structure TokenAnalysis where
  isRugPull : Bool
  maxHolderPercentage : ℚ
  isSecure : Bool
  totalHolders : ℕ
  hasUnlimitedMint : Bool
  hasPausableTrading : Bool
  hasBlacklist : Bool
  volume24h : ℚ
  riskLevel : RiskLevel
deriving DecidableEq, Repr

/-- Pure core of `TokenAnalyzer.analyzeToken`
(`src/services/TokenAnalyzer.ts` lines 21-67), taking the already
fetched holder list, contract analysis and 24h volume.  Mirrors lines
29-34 (the `isSafe` conjunction) and 44-55 (the record). -/
def analyzeTokenPure (holders : List TokenHolder) (c : ContractAnalysis)
    (volume24h : ℚ) : TokenAnalysis :=
  let dist := analyzeHolderDistribution holders
  let isSafe : Bool :=
    decide (dist.uniqueHolders ≥ 100) &&
    decide (dist.maxHolderPercentage ≤ 20) &&
    !c.hasUnlimitedMint &&
    !c.hasPausableTrading &&
    !c.hasBlacklist &&
    decide (volume24h ≥ 2000)
  { isRugPull := !isSafe
    maxHolderPercentage := dist.maxHolderPercentage
    isSecure := isSafe
    totalHolders := dist.uniqueHolders
    hasUnlimitedMint := c.hasUnlimitedMint
    hasPausableTrading := c.hasPausableTrading
    hasBlacklist := c.hasBlacklist
    volume24h := volume24h
    riskLevel := c.riskLevel }

/-- Analysis record that `TokenAnalyzer.analyzeToken` hands to
`storeTokenAnalysis` (lines 57-65). -/
structure StoredAnalysis where
  totalHolders : ℕ
  maxHolderPercentage : ℚ
  hasUnlimitedMint : Bool
  hasPausableTrading : Bool
  hasBlacklist : Bool
  volume24h : ℚ
  riskLevel : RiskLevel
deriving DecidableEq, Repr

/-- Record handed to persistence by `analyzeToken`, built from the same
fetched components as the returned analysis. -/
def analyzerStoredRecord (holders : List TokenHolder) (c : ContractAnalysis)
    (volume24h : ℚ) : StoredAnalysis :=
  let dist := analyzeHolderDistribution holders
  ⟨dist.uniqueHolders, dist.maxHolderPercentage, c.hasUnlimitedMint,
    c.hasPausableTrading, c.hasBlacklist, volume24h, c.riskLevel⟩

/-- Database row inserted by `storeTokenAnalysis`. -/
structure AnalysisRow where
  token_address : String
  total_holders : ℕ
  max_holder_percentage : ℚ
  has_unlimited_mint : Bool
  has_pausable_trading : Bool
  has_blacklist : Bool
  volume_24h : ℚ
  is_safe : Bool
deriving DecidableEq, Repr

/-- Embedding of `storeTokenAnalysis` from `src/utils/tokenAnalysis.ts`
(lines 178-205): the inserted row; its `is_safe` column is the test
that `analysis.riskLevel` equals LOW. -/
def storeTokenAnalysisRow (tokenAddr : String) (a : StoredAnalysis) :
    AnalysisRow :=
  ⟨tokenAddr, a.totalHolders, a.maxHolderPercentage, a.hasUnlimitedMint,
    a.hasPausableTrading, a.hasBlacklist, a.volume24h,
    decide (a.riskLevel = .LOW)⟩

/-- Raw token account as consumed by `getTokenHolders`: the account
public key and the signed 64-bit balance at offset 64 of its data. -/
structure RawAccount where
  pubkey : String
  balanceAt64 : ℤ
deriving DecidableEq, Repr

/-- Embedding of `getTokenHolders` from `src/utils/tokenAnalysis.ts`
(lines 9-34), as a function of the outcome of the
`getProgramAccounts` fetch: on success each account is mapped to a
`TokenHolder`; the catch branch returns the empty list. -/
def getTokenHolders (fetched : Except String (List RawAccount)) :
    List TokenHolder :=
  match fetched with
  | .ok accounts => accounts.map (fun a => ⟨a.pubkey, a.balanceAt64⟩)
  | .error _ => []

/-- Count of true heuristic flags, as the verdict clause of the
specification words it (spec-side comparator for the risk-level rule). -/
def specFlagCount (m p b o : Bool) : ℕ :=
  (cond m 1 0) + (cond p 1 0) + (cond b 1 0) + (cond o 1 0)

namespace Retry

/-- Outcome of `retryWithBackoff` (`unnamed/part_015` lines 12-35):
either the value of the operation, a propagated operation error, or
the final generic error (reachable only with zero attempts). -/
inductive RetryOutcome (E A : Type) where
  | success : A → RetryOutcome E A
  | failure : E → RetryOutcome E A
  | exhausted : RetryOutcome E A
deriving DecidableEq, Repr

/-- Wait performed at the top of loop iteration `a`: nothing on the
first attempt, `baseDelay * 2 ^ (attempt - 1)` before a retry
(line 20). -/
def waitFor (d a : ℕ) : List ℕ := if a = 0 then [] else [d * 2 ^ (a - 1)]

/-- Loop of `retryWithBackoff`, indexed by the current attempt and by
the remaining iterations as fuel (`fuel = maxRetries - attempt`).
`op` gives the outcome of the wrapped operation on each attempt;
`transient` is the 429 rate-limit test of line 26.  Returns the
sequence of waits performed and the outcome. -/
def retryAux (op : ℕ → Except E A) (transient : E → Bool) (m d : ℕ) :
    ℕ → ℕ → List ℕ × RetryOutcome E A
  | _, 0 => ([], .exhausted)
  | a, fuel + 1 =>
    let w := waitFor d a
    match op a with
    | .ok v => (w, .success v)
    | .error e =>
      if transient e then
        if a = m - 1 then (w, .failure e)
        else
          let r := retryAux op transient m d (a + 1) fuel
          (w ++ r.1, r.2)
      else (w, .failure e)

/-- Embedding of `retryWithBackoff` from `unnamed/part_015`
(lines 12-35). -/
def retryWithBackoff (op : ℕ → Except E A) (transient : E → Bool)
    (maxRetries baseDelay : ℕ) : List ℕ × RetryOutcome E A :=
  retryAux op transient maxRetries baseDelay 0 maxRetries

/-- Waits incurred while executing attempts `a, a+1, ..., a+k`. -/
def waitsFrom (d a k : ℕ) : List ℕ :=
  ((List.range (k + 1)).map (fun i => waitFor d (a + i))).flatten

/-- Expected backoff schedule before retry attempts `1, ..., k`. -/
def backoffWaits (d k : ℕ) : List ℕ :=
  (List.range k).map (fun i => d * 2 ^ i)

end Retry

namespace Purchase

/-- External collaborators of `executePurchase` (`unnamed/part_010`
lines 202-275, identical in `unnamed/part_007` lines 177-250): config
fetch and quote fetch are indexed by the attempt number (the state of
the external world may differ between attempts); swap building and
submission consume the quote and transaction of the current attempt. -/
structure PurchaseEnv (Q T S E C : Type) where
  getConfig : ℕ → Except E C
  fetchQuote : ℕ → Except E Q
  buildSwap : Q → Except E T
  send : T → Except E S

/-- Observable events of one `executePurchase` run: which quote was
received in which attempt, which quote had its transaction submitted
in which attempt, and the inter-attempt sleeps. -/
inductive PEvent (Q : Type) where
  | quoted (attempt : ℕ) (q : Q)
  | submitted (attempt : ℕ) (q : Q)
  | wait (ms : ℕ)
deriving DecidableEq, Repr

/-- One iteration of the retry loop body: config, fresh quote, swap
build, then submission of the transaction built from the quote of this
attempt.  Any failure aborts the attempt with that error. -/
def runAttempt {Q T S E C : Type} (env : PurchaseEnv Q T S E C) (i : ℕ) :
    List (PEvent Q) × Except E S :=
  match env.getConfig i with
  | .error e => ([], .error e)
  | .ok _ =>
    match env.fetchQuote i with
    | .error e => ([], .error e)
    | .ok q =>
      match env.buildSwap q with
      | .error e => ([.quoted i q], .error e)
      | .ok t => ([.quoted i q, .submitted i q], env.send t)

/-- Outcome of `executePurchase`: the submission signature, the last
error after exhausting the retries, the unreachable generic error, or
the initial guard error. -/
inductive PurchaseOutcome (E S : Type) where
  | success (s : S)
  | lastError (e : E)
  | exhaustedNoError
  | notInit
deriving DecidableEq, Repr

/-- Retry loop of `executePurchase`: on failure record the error,
sleep 2000 ms and continue; afterwards rethrow the last error. -/
def execLoop {Q T S E C : Type} (env : PurchaseEnv Q T S E C) :
    ℕ → ℕ → Option E → List (PEvent Q) × PurchaseOutcome E S
  | 0, _, lastErr =>
    ([], match lastErr with
      | some e => .lastError e
      | none => .exhaustedNoError)
  | fuel + 1, i, _ =>
    match runAttempt env i with
    | (evs, .ok s) => (evs, .success s)
    | (evs, .error e) =>
      let r := execLoop env fuel (i + 1) (some e)
      (evs ++ [.wait 2000] ++ r.1, r.2)

/-- Embedding of `executePurchase` with `retryCount = 3`: the initial
guard on connection and trading wallet, then the retry loop. -/
def executePurchase {Q T S E C : Type} (conn wallet : Option Unit)
    (env : PurchaseEnv Q T S E C) : List (PEvent Q) × PurchaseOutcome E S :=
  match conn, wallet with
  | some _, some _ => execLoop env 3 0 none
  | _, _ => ([], .notInit)

end Purchase

namespace Wallet

/-- Error classes raised by `setTradingWallet` (`unnamed/part_011`
lines 67-111; the `unnamed/part_013` variant lines 67-106 is the same
control flow).  All four are invalid-key-format failures. -/
inductive KeyErr
  | emptyKey
  | badFormat
  | badLength (n : ℕ)
  | badKeypair
deriving DecidableEq, Repr

/-- State of the trade service relevant to `setTradingWallet`: the
currently held trading wallet, if any. -/
structure WalletSt (K : Type) where
  tradingWallet : Option K
deriving DecidableEq, Repr

/-- Embedding of `setTradingWallet` from `unnamed/part_011`
lines 67-111, as a function of the external collaborators: `decode`
is `bs58.decode` (`none` when decoding throws), `fromSecretKey` is
`Keypair.fromSecretKey` (`none` when construction rejects the bytes),
`pubkeyOf` reads the public key.  Returns the new state and either the
public key or the error. -/
def setTradingWallet {K : Type} (decode : String → Option (List ℕ))
    (fromSecretKey : List ℕ → Option K) (pubkeyOf : K → String)
    (st : WalletSt K) (privateKeyString : String) :
    WalletSt K × Except KeyErr String :=
  if privateKeyString.isEmpty then (st, .error .emptyKey)
  else
    match decode privateKeyString.trim with
    | none => (st, .error .badFormat)
    | some secretKey =>
      if secretKey.length ≠ 64 then (st, .error (.badLength secretKey.length))
      else
        match fromSecretKey secretKey with
        | none => (st, .error .badKeypair)
        | some kp => (⟨some kp⟩, .ok (pubkeyOf kp))

end Wallet

namespace SingleFlight

/-- State of `SolanaTradeExecutor` relevant to `initialize`
(`src/services/SolanaTradeExecutor.ts` lines 56-133): `connection`
(null until a successful setup) and `inflight`, the identity of the
in-flight `initPromise` when one exists.  `connection = some` with
`inflight = none` is Ready; `inflight = some` is Initializing; both
`none` is Idle. -/
structure ExecSt where
  connection : Option Unit
  inflight : Option ℕ
deriving DecidableEq, Repr

/-- What a single `initialize()` call does, as observed by the caller:
attach to the in-flight promise, return at once because already
initialized, or start a new underlying `_initialize` run. -/
inductive CallRes
  | attached (p : ℕ)
  | noop
  | started (p : ℕ)
deriving DecidableEq, Repr

/-- One `initialize()` call (lines 71-92): the `initPromise` check
comes first, then the `connection` check, otherwise a fresh promise
`fresh` is installed and the underlying setup starts. -/
def initCall (s : ExecSt) (fresh : ℕ) : ExecSt × CallRes :=
  match s.inflight with
  | some p => (s, .attached p)
  | none =>
    match s.connection with
    | some _ => (s, .noop)
    | none => ({ connection := s.connection, inflight := some fresh }, .started fresh)

/-- Completion of the in-flight `_initialize` run (lines 94-133): on
success the connection is kept and the promise slot is cleared; on
failure the catch clears the connection and the finally clears the
promise slot, so the state returns to Idle and the failure is not
cached. -/
def settle (s : ExecSt) (ok : Bool) : ExecSt :=
  if ok then { connection := some (), inflight := none }
  else { connection := none, inflight := none }

/-- Burst of `initialize()` calls arriving before the in-flight run
completes, threaded through the state. -/
def runCalls (s : ExecSt) (ids : List ℕ) : ExecSt × List CallRes :=
  match ids with
  | [] => (s, [])
  | id :: rest =>
    let p := initCall s id
    let r := runCalls p.1 rest
    (r.1, p.2 :: r.2)

/-- Number of call results that actually started an underlying setup. -/
def startedCount (rs : List CallRes) : ℕ :=
  (rs.filter (fun r => match r with | .started _ => true | _ => false)).length

/-- State of the `JupiterTradeService` variant (`unnamed/part_011`
lines 34-65), whose ready check compares the stored connection with
the argument. -/
structure JupSt where
  connection : Option ℕ
  inflight : Option ℕ
deriving DecidableEq, Repr

/-- One `initialize(connection)` call of the Jupiter variant. -/
def jupInitCall (s : JupSt) (conn fresh : ℕ) : JupSt × CallRes :=
  match s.inflight with
  | some p => (s, .attached p)
  | none =>
    if s.connection = some conn then (s, .noop)
    else ({ connection := s.connection, inflight := some fresh }, .started fresh)

end SingleFlight

end Rugwatcher

namespace Rugwatcher

lemma foldl_max_mem (a : ℤ) (l : List ℤ) : l.foldl max a ∈ a :: l := by
  induction l generalizing a with
  | nil => simp
  | cons b bs ih =>
    rw [List.foldl_cons]
    have h := ih (max a b)
    rw [List.mem_cons] at h
    rcases h with h | h
    · rw [h]
      rcases max_choice a b with hm | hm <;> rw [hm] <;> simp
    · exact List.mem_cons_of_mem _ (List.mem_cons_of_mem _ h)

lemma le_foldl_max (a : ℤ) (l : List ℤ) :
    a ≤ l.foldl max a ∧ ∀ x ∈ l, x ≤ l.foldl max a := by
  induction l generalizing a with
  | nil => simp
  | cons b bs ih =>
    obtain ⟨h1, h2⟩ := ih (max a b)
    rw [List.foldl_cons]
    refine ⟨le_trans (le_max_left a b) h1, ?_⟩
    intro x hx
    rw [List.mem_cons] at hx
    rcases hx with hx | hx
    · rw [hx]
      exact le_trans (le_max_right a b) h1
    · exact h2 x hx

namespace Retry

lemma waitsFrom_zero (d a : ℕ) : waitsFrom d a 0 = waitFor d a := by
  have h : List.range 1 = [0] := rfl
  simp [waitsFrom, h]

lemma waitsFrom_succ (d a k : ℕ) :
    waitsFrom d a (k + 1) = waitFor d a ++ waitsFrom d (a + 1) k := by
  have hfun : ((fun i => waitFor d (a + i)) ∘ Nat.succ) =
      (fun i => waitFor d (a + 1 + i)) := by
    funext i
    have h : a + Nat.succ i = a + 1 + i := by omega
    simp only [Function.comp, h]
  simp only [waitsFrom]
  rw [List.range_succ_eq_map, List.map_cons, List.flatten_cons, List.map_map, hfun]
  simp

lemma waitsFrom_shift (d a k : ℕ) :
    waitsFrom d (a + 1) k = (List.range (k + 1)).map (fun i => d * 2 ^ (a + i)) := by
  induction k generalizing a with
  | zero =>
    have h : List.range 1 = [0] := rfl
    simp [waitsFrom_zero, waitFor, h]
  | succ n ih =>
    rw [waitsFrom_succ, ih]
    have hfun : ((fun i => d * 2 ^ (a + i)) ∘ Nat.succ) =
        (fun i => d * 2 ^ (a + 1 + i)) := by
      funext i
      have h : a + Nat.succ i = a + 1 + i := by omega
      simp only [Function.comp, h]
    conv_rhs => rw [List.range_succ_eq_map]
    rw [List.map_cons, List.map_map, hfun]
    simp [waitFor]

lemma waitsFrom_eq_backoffWaits (d k : ℕ) : waitsFrom d 0 k = backoffWaits d k := by
  cases k with
  | zero => simp [waitsFrom_zero, backoffWaits, waitFor]
  | succ n =>
    rw [waitsFrom_succ]
    have h0 : waitFor d 0 = [] := rfl
    rw [h0, List.nil_append]
    have h1 := waitsFrom_shift d 0 n
    simpa [backoffWaits] using h1

variable {E A : Type}

lemma retryAux_step_cont (op : ℕ → Except E A) (transient : E → Bool)
    (m d a fuel : ℕ) (e0 : E)
    (he0 : op a = .error e0) (ht0 : transient e0 = true) (hne : ¬ (a = m - 1)) :
    retryAux op transient m d a (fuel + 1) =
      (waitFor d a ++ (retryAux op transient m d (a + 1) fuel).1,
       (retryAux op transient m d (a + 1) fuel).2) := by
  simp only [retryAux, he0, ht0, if_true, if_neg hne]

lemma retryAux_success (op : ℕ → Except E A) (transient : E → Bool) (m d : ℕ) :
    ∀ (k a fuel : ℕ) (v : A), a + fuel = m → k < fuel →
      (∀ i, i < k → ∃ e, op (a + i) = .error e ∧ transient e = true) →
      op (a + k) = .ok v →
      retryAux op transient m d a fuel = (waitsFrom d a k, .success v) := by
  intro k
  induction k with
  | zero =>
    intro a fuel v hm hk htrans hop
    cases fuel with
    | zero => omega
    | succ f =>
      rw [show a + 0 = a from rfl] at hop
      simp only [retryAux, hop, waitsFrom_zero]
  | succ n ih =>
    intro a fuel v hm hk htrans hop
    cases fuel with
    | zero => omega
    | succ f =>
      obtain ⟨e0, he0, ht0⟩ := htrans 0 (by omega)
      rw [show a + 0 = a from rfl] at he0
      have hne : ¬ (a = m - 1) := by omega
      have htrans' : ∀ i, i < n → ∃ e, op (a + 1 + i) = .error e ∧ transient e = true := by
        intro i hi
        have h := htrans (i + 1) (by omega)
        rwa [show a + (i + 1) = a + 1 + i by omega] at h
      have hop' : op (a + 1 + n) = .ok v := by
        rwa [show a + (n + 1) = a + 1 + n by omega] at hop
      have hrec := ih (a + 1) f v (by omega) (by omega) htrans' hop'
      simp only [retryAux, he0, ht0, if_true, if_neg hne, hrec, waitsFrom_succ]

lemma retryAux_fatal (op : ℕ → Except E A) (transient : E → Bool) (m d : ℕ) :
    ∀ (k a fuel : ℕ) (e : E), a + fuel = m → k < fuel →
      (∀ i, i < k → ∃ e', op (a + i) = .error e' ∧ transient e' = true) →
      op (a + k) = .error e → transient e = false →
      retryAux op transient m d a fuel = (waitsFrom d a k, .failure e) := by
  intro k
  induction k with
  | zero =>
    intro a fuel e hm hk htrans hop hfatal
    cases fuel with
    | zero => omega
    | succ f =>
      rw [show a + 0 = a from rfl] at hop
      simp only [retryAux, hop, hfatal, waitsFrom_zero, Bool.false_eq_true, if_false]
  | succ n ih =>
    intro a fuel e hm hk htrans hop hfatal
    cases fuel with
    | zero => omega
    | succ f =>
      obtain ⟨e0, he0, ht0⟩ := htrans 0 (by omega)
      rw [show a + 0 = a from rfl] at he0
      have hne : ¬ (a = m - 1) := by omega
      have htrans' : ∀ i, i < n → ∃ e', op (a + 1 + i) = .error e' ∧ transient e' = true := by
        intro i hi
        have h := htrans (i + 1) (by omega)
        rwa [show a + (i + 1) = a + 1 + i by omega] at h
      have hop' : op (a + 1 + n) = .error e := by
        rwa [show a + (n + 1) = a + 1 + n by omega] at hop
      have hrec := ih (a + 1) f e (by omega) (by omega) htrans' hop' hfatal
      simp only [retryAux, he0, ht0, if_true, if_neg hne, hrec, waitsFrom_succ]

lemma retryAux_exhaust (op : ℕ → Except E A) (transient : E → Bool) (m d : ℕ) :
    ∀ (k a : ℕ) (e : E), a + (k + 1) = m →
      (∀ i, i < k → ∃ e', op (a + i) = .error e' ∧ transient e' = true) →
      op (a + k) = .error e → transient e = true →
      retryAux op transient m d a (k + 1) = (waitsFrom d a k, .failure e) := by
  intro k
  induction k with
  | zero =>
    intro a e hm htrans hop htr
    rw [show a + 0 = a from rfl] at hop
    have hlast : a = m - 1 := by omega
    simp only [retryAux, hop, htr, if_true, if_pos hlast, waitsFrom_zero]
  | succ n ih =>
    intro a e hm htrans hop htr
    obtain ⟨e0, he0, ht0⟩ := htrans 0 (by omega)
    rw [show a + 0 = a from rfl] at he0
    have hne : ¬ (a = m - 1) := by omega
    have htrans' : ∀ i, i < n → ∃ e', op (a + 1 + i) = .error e' ∧ transient e' = true := by
      intro i hi
      have h := htrans (i + 1) (by omega)
      rwa [show a + (i + 1) = a + 1 + i by omega] at h
    have hop' : op (a + 1 + n) = .error e := by
      rwa [show a + (n + 1) = a + 1 + n by omega] at hop
    have hrec := ih (a + 1) e (by omega) htrans' hop' htr
    rw [retryAux_step_cont op transient m d a (n + 1) e0 he0 ht0 hne, hrec,
      waitsFrom_succ]

end Retry

namespace Purchase

variable {Q T S E C : Type}

lemma runAttempt_submitted (env : PurchaseEnv Q T S E C) (j i : ℕ) (q : Q)
    (h : PEvent.submitted i q ∈ (runAttempt env j).1) :
    i = j ∧ env.fetchQuote j = .ok q := by
  unfold runAttempt at h
  rcases hcfg : env.getConfig j with ecfg | cfg
  · rw [hcfg] at h
    simp at h
  rw [hcfg] at h
  simp only [] at h
  rcases hq : env.fetchQuote j with eq | q'
  · rw [hq] at h
    simp at h
  rw [hq] at h
  simp only [] at h
  rcases hb : env.buildSwap q' with eb | t
  · rw [hb] at h
    simp at h
  rw [hb] at h
  simp only [] at h
  simp only [List.mem_cons, List.mem_singleton, List.not_mem_nil,
    or_false] at h
  rcases h with h | h
  · cases h
  · rw [PEvent.submitted.injEq] at h
    obtain ⟨hi, hqq⟩ := h
    subst hqq
    exact ⟨hi, rfl⟩

lemma runAttempt_no_wait (env : PurchaseEnv Q T S E C) (j w : ℕ)
    (h : PEvent.wait w ∈ (runAttempt env j).1) : False := by
  unfold runAttempt at h
  rcases hcfg : env.getConfig j with ecfg | cfg
  · rw [hcfg] at h
    simp at h
  rw [hcfg] at h
  simp only [] at h
  rcases hq : env.fetchQuote j with eq | q'
  · rw [hq] at h
    simp at h
  rw [hq] at h
  simp only [] at h
  rcases hb : env.buildSwap q' with eb | t <;> rw [hb] at h <;> simp at h

lemma execLoop_mem (env : PurchaseEnv Q T S E C) :
    ∀ (fuel i : ℕ) (le : Option E) (ev : PEvent Q),
      ev ∈ (execLoop env fuel i le).1 →
      (∃ j, ev ∈ (runAttempt env j).1) ∨ ev = .wait 2000 := by
  intro fuel
  induction fuel with
  | zero =>
    intro i le ev h
    simp [execLoop] at h
  | succ f ih =>
    intro i le ev h
    rcases hr : runAttempt env i with ⟨evs, r⟩
    cases r with
    | ok s =>
      rw [execLoop, hr] at h
      exact Or.inl ⟨i, by rw [hr]; exact h⟩
    | error e =>
      rw [execLoop, hr] at h
      simp only [List.append_assoc, List.mem_append, List.mem_singleton] at h
      rcases h with h | h | h
      · exact Or.inl ⟨i, by rw [hr]; exact h⟩
      · exact Or.inr h
      · exact ih (i + 1) (some e) ev h

lemma execLoop_fail_step (env : PurchaseEnv Q T S E C) (fuel i : ℕ)
    (le : Option E) (e : E) (h : (runAttempt env i).2 = .error e) :
    execLoop env (fuel + 1) i le =
      ((runAttempt env i).1 ++ [.wait 2000] ++
        (execLoop env fuel (i + 1) (some e)).1,
       (execLoop env fuel (i + 1) (some e)).2) := by
  rcases hr : runAttempt env i with ⟨evs, r⟩
  rw [hr] at h
  simp only at h
  subst h
  rw [execLoop, hr]

lemma execLoop_ok_step (env : PurchaseEnv Q T S E C) (fuel i : ℕ)
    (le : Option E) (s : S) (h : (runAttempt env i).2 = .ok s) :
    execLoop env (fuel + 1) i le = ((runAttempt env i).1, .success s) := by
  rcases hr : runAttempt env i with ⟨evs, r⟩
  rw [hr] at h
  simp only at h
  subst h
  rw [execLoop, hr]

end Purchase

namespace SingleFlight

lemma runCalls_inflight (ids : List ℕ) (c : Option Unit) (p : ℕ) :
    runCalls ⟨c, some p⟩ ids = (⟨c, some p⟩, ids.map (fun _ => .attached p)) := by
  induction ids with
  | nil => rfl
  | cons id rest ih => simp [runCalls, initCall, ih]

end SingleFlight

end Rugwatcher

namespace Rugwatcher

/-- C1: the returned analysis has `isSecure = true` exactly when the
holder count is at least 100, the maximal holder percentage is at most
20, the unlimited-mint, pausable-trading and blacklist flags are all
false, and the 24h volume is at least 2000. -/
theorem C1_verdict_iff (holders : List TokenHolder) (c : ContractAnalysis) (vol : ℚ) :
    (analyzeTokenPure holders c vol).isSecure = true ↔
      ((analyzeTokenPure holders c vol).totalHolders ≥ 100 ∧
       (analyzeTokenPure holders c vol).maxHolderPercentage ≤ 20 ∧
       (analyzeTokenPure holders c vol).hasUnlimitedMint = false ∧
       (analyzeTokenPure holders c vol).hasPausableTrading = false ∧
       (analyzeTokenPure holders c vol).hasBlacklist = false ∧
       (analyzeTokenPure holders c vol).volume24h ≥ 2000) := by
  simp [analyzeTokenPure, Bool.and_eq_true, decide_eq_true_iff, Bool.not_eq_true',
    and_assoc]

/-- C2 counterexample: with zero holders, a clean contract scan and
volume 5000, the persisted row has `is_safe = true` (because the risk
level is LOW) while `total_holders = 0 < 100`, refuting the claimed
invariant for the record handed to persistence. -/
theorem C2_counterexample :
    (storeTokenAnalysisRow "tok" (analyzerStoredRecord []
        (analyzeTokenContractScan "xyz") 5000)).is_safe = true ∧
    ¬ (storeTokenAnalysisRow "tok" (analyzerStoredRecord []
        (analyzeTokenContractScan "xyz") 5000)).total_holders ≥ 100 := by
  constructor <;> decide

/-- C2 (amended): for the analysis returned to the caller,
`isSecure = true` implies the three checked flags are false, at least
100 holders, concentration at most 20 and volume at least 2000, and a
risk level other than HIGH (the ownership-transfer flag may still be
true, making the risk level MEDIUM); for the record handed to
persistence, `is_safe = true` is exactly risk level LOW and implies
all four heuristic flags are false, but implies nothing about the
holder or volume thresholds. -/
theorem C2_amended (addr : String) (holders : List TokenHolder)
    (c : ContractAnalysis) (vol : ℚ)
    (hc : c.riskLevel = calculateRiskLevel c.hasUnlimitedMint c.hasPausableTrading
      c.hasBlacklist c.hasOwnershipTransfer) :
    ((analyzeTokenPure holders c vol).isSecure = true →
      ((analyzeTokenPure holders c vol).riskLevel ≠ .HIGH ∧
       (analyzeTokenPure holders c vol).hasUnlimitedMint = false ∧
       (analyzeTokenPure holders c vol).hasPausableTrading = false ∧
       (analyzeTokenPure holders c vol).hasBlacklist = false ∧
       (analyzeTokenPure holders c vol).totalHolders ≥ 100 ∧
       (analyzeTokenPure holders c vol).maxHolderPercentage ≤ 20 ∧
       (analyzeTokenPure holders c vol).volume24h ≥ 2000)) ∧
    ((storeTokenAnalysisRow addr (analyzerStoredRecord holders c vol)).is_safe = true →
      (c.riskLevel = .LOW ∧ c.hasUnlimitedMint = false ∧ c.hasPausableTrading = false ∧
       c.hasBlacklist = false ∧ c.hasOwnershipTransfer = false)) := by
  obtain ⟨m, p, b, o, r⟩ := c
  simp only at hc
  subst hc
  constructor
  · intro h
    simp only [analyzeTokenPure, Bool.and_eq_true, decide_eq_true_eq,
      Bool.not_eq_true'] at h
    obtain ⟨⟨⟨⟨⟨h1, h2⟩, h3⟩, h4⟩, h5⟩, h6⟩ := h
    subst h3 h4 h5
    refine ⟨?_, rfl, rfl, rfl, h1, h2, h6⟩
    cases o <;> simp [analyzeTokenPure, calculateRiskLevel]
  · intro h
    simp only [storeTokenAnalysisRow, analyzerStoredRecord,
      decide_eq_true_eq] at h
    revert h
    cases m <;> cases p <;> cases b <;> cases o <;> simp [calculateRiskLevel]

/-- C2 witness: the amended invariant instantiated at zero holders, a
clean contract scan and volume 0. -/
theorem C2_amended_witness :
    ((analyzeTokenPure [] (analyzeTokenContractScan "xyz") 0).isSecure = true →
      ((analyzeTokenPure [] (analyzeTokenContractScan "xyz") 0).riskLevel ≠ .HIGH ∧
       (analyzeTokenPure [] (analyzeTokenContractScan "xyz") 0).hasUnlimitedMint = false ∧
       (analyzeTokenPure [] (analyzeTokenContractScan "xyz") 0).hasPausableTrading = false ∧
       (analyzeTokenPure [] (analyzeTokenContractScan "xyz") 0).hasBlacklist = false ∧
       (analyzeTokenPure [] (analyzeTokenContractScan "xyz") 0).totalHolders ≥ 100 ∧
       (analyzeTokenPure [] (analyzeTokenContractScan "xyz") 0).maxHolderPercentage ≤ 20 ∧
       (analyzeTokenPure [] (analyzeTokenContractScan "xyz") 0).volume24h ≥ 2000)) ∧
    ((storeTokenAnalysisRow "t" (analyzerStoredRecord []
        (analyzeTokenContractScan "xyz") 0)).is_safe = true →
      ((analyzeTokenContractScan "xyz").riskLevel = .LOW ∧
       (analyzeTokenContractScan "xyz").hasUnlimitedMint = false ∧
       (analyzeTokenContractScan "xyz").hasPausableTrading = false ∧
       (analyzeTokenContractScan "xyz").hasBlacklist = false ∧
       (analyzeTokenContractScan "xyz").hasOwnershipTransfer = false)) :=
  C2_amended "t" [] (analyzeTokenContractScan "xyz") 0 (by decide)

/-- C3 counterexample: on a contract string that matches none of the
heuristic patterns, the `part_015` variant of `analyzeTokenContract`
reports zero true flags yet a risk level different from LOW, refuting
the claim that the risk level of every completed contract analysis is
derived from the flag count. -/
theorem C3_counterexample :
    (analyzeTokenContractScan15 "xyz").hasUnlimitedMint = false ∧
    (analyzeTokenContractScan15 "xyz").hasPausableTrading = false ∧
    (analyzeTokenContractScan15 "xyz").hasBlacklist = false ∧
    (analyzeTokenContractScan15 "xyz").hasOwnershipTransfer = false ∧
    (analyzeTokenContractScan15 "xyz").riskLevel ≠ .LOW := by
  refine ⟨rfl, rfl, rfl, rfl, by decide⟩

/-- C3 (amended): `calculateRiskLevel` maps a flag count of 0 to LOW,
1 or 2 to MEDIUM and 3 or more to HIGH, independent of holder and
volume data, and the `utils/tokenAnalysis.ts` contract scan derives
its risk level through it; the `part_015` variant instead reports HIGH
for every completed scan regardless of the flags. -/
theorem C3_amended :
    (∀ m p b o : Bool,
      (specFlagCount m p b o = 0 → calculateRiskLevel m p b o = .LOW) ∧
      ((specFlagCount m p b o = 1 ∨ specFlagCount m p b o = 2) →
        calculateRiskLevel m p b o = .MEDIUM) ∧
      (3 ≤ specFlagCount m p b o → calculateRiskLevel m p b o = .HIGH)) ∧
    (∀ s : String, (analyzeTokenContractScan s).riskLevel =
      calculateRiskLevel (analyzeTokenContractScan s).hasUnlimitedMint
        (analyzeTokenContractScan s).hasPausableTrading
        (analyzeTokenContractScan s).hasBlacklist
        (analyzeTokenContractScan s).hasOwnershipTransfer) ∧
    (∀ s : String, (analyzeTokenContractScan15 s).riskLevel = .HIGH) :=
  ⟨by decide, fun _ => rfl, fun _ => rfl⟩

/-- C3 witness: the risk-level mapping evaluated at concrete flag
vectors with 0, 1 and 3 true flags. -/
theorem C3_amended_witness :
    calculateRiskLevel false false false false = .LOW ∧
    calculateRiskLevel true false false false = .MEDIUM ∧
    calculateRiskLevel true true true false = .HIGH :=
  ⟨(C3_amended.1 false false false false).1 (by decide),
   (C3_amended.1 true false false false).2.1 (Or.inl (by decide)),
   (C3_amended.1 true true true false).2.2 (by decide)⟩

/-- C4: the backoff retrier waits `baseDelay * 2 ^ (i - 1)` before
retry attempt `i`; it retries only transient failures, a non-transient
failure propagates immediately; a run of transient failures on every
attempt propagates the last transient failure after the full wait
schedule; success after `k` transient failures returns the operation
value after exactly the waits `d, 2d, ..., 2 ^ (k-1) * d`. -/
theorem C4_backoffRetrier :
    (∀ (E A : Type) (op : ℕ → Except E A) (transient : E → Bool) (m d k : ℕ) (v : A),
      k < m →
      (∀ i, i < k → ∃ e, op i = .error e ∧ transient e = true) →
      op k = .ok v →
      Retry.retryWithBackoff op transient m d =
        (Retry.backoffWaits d k, .success v)) ∧
    (∀ (E A : Type) (op : ℕ → Except E A) (transient : E → Bool) (m d k : ℕ) (e : E),
      k < m →
      (∀ i, i < k → ∃ e', op i = .error e' ∧ transient e' = true) →
      op k = .error e → transient e = false →
      Retry.retryWithBackoff op transient m d =
        (Retry.backoffWaits d k, .failure e)) ∧
    (∀ (E A : Type) (op : ℕ → Except E A) (transient : E → Bool) (m d : ℕ) (e : E),
      0 < m →
      (∀ i, i < m - 1 → ∃ e', op i = .error e' ∧ transient e' = true) →
      op (m - 1) = .error e → transient e = true →
      Retry.retryWithBackoff op transient m d =
        (Retry.backoffWaits d (m - 1), .failure e)) := by
  refine ⟨?_, ?_, ?_⟩
  · intro E A op transient m d k v hk htrans hop
    have htrans' : ∀ i, i < k → ∃ e, op (0 + i) = .error e ∧ transient e = true := by
      intro i hi
      simpa using htrans i hi
    have hop' : op (0 + k) = .ok v := by simpa using hop
    have h := Retry.retryAux_success op transient m d k 0 m v (by omega) hk htrans' hop'
    rwa [Retry.waitsFrom_eq_backoffWaits] at h
  · intro E A op transient m d k e hk htrans hop hfatal
    have htrans' : ∀ i, i < k → ∃ e', op (0 + i) = .error e' ∧ transient e' = true := by
      intro i hi
      simpa using htrans i hi
    have hop' : op (0 + k) = .error e := by simpa using hop
    have h := Retry.retryAux_fatal op transient m d k 0 m e (by omega) hk htrans' hop' hfatal
    rwa [Retry.waitsFrom_eq_backoffWaits] at h
  · intro E A op transient m d e hm htrans hop htr
    have htrans' : ∀ i, i < m - 1 → ∃ e', op (0 + i) = .error e' ∧ transient e' = true := by
      intro i hi
      simpa using htrans i hi
    have hop' : op (0 + (m - 1)) = .error e := by simpa using hop
    have h := Retry.retryAux_exhaust op transient m d (m - 1) 0 e (by omega) htrans' hop' htr
    rw [show m - 1 + 1 = m by omega] at h
    unfold Retry.retryWithBackoff
    rwa [Retry.waitsFrom_eq_backoffWaits] at h

/-- C4 witness: with three attempts and base delay 1000, transient 429
failures on the first two attempts and success on the third yield
exactly the waits 1000 and 2000 and the operation value. -/
theorem C4_backoffRetrier_witness :
    Retry.retryWithBackoff
      (fun i => if i ≤ 1 then (.error 429 : Except ℕ ℕ) else .ok 7)
      (fun e => e == 429) 3 1000 = ([1000, 2000], .success 7) := by
  have h := C4_backoffRetrier.1 ℕ ℕ
    (fun i => if i ≤ 1 then (.error 429 : Except ℕ ℕ) else .ok 7)
    (fun e => e == 429) 3 1000 2 7 (by omega)
    (fun i hi => ⟨429, by interval_cases i <;> simp⟩) (by simp)
  have hw : Retry.backoffWaits 1000 2 = [1000, 2000] := by
    simp [Retry.backoffWaits, List.range_succ]
  rwa [hw] at h

/-- C5: every transaction submitted by `executePurchase` was built from
the quote fetched in the same attempt (a quote from an earlier attempt
is never resubmitted); every inter-attempt delay is exactly 2000 ms;
when all three attempts fail the last error is surfaced; and after a
failed attempt the next attempt re-requests a fresh quote and its
success value is returned. -/
theorem C5_executePurchase :
    (∀ (Q T S E C : Type) (env : Purchase.PurchaseEnv Q T S E C) (i : ℕ) (q : Q),
      Purchase.PEvent.submitted i q ∈
        (Purchase.executePurchase (some ()) (some ()) env).1 →
      env.fetchQuote i = .ok q) ∧
    (∀ (Q T S E C : Type) (env : Purchase.PurchaseEnv Q T S E C) (w : ℕ),
      Purchase.PEvent.wait w ∈
        (Purchase.executePurchase (some ()) (some ()) env).1 → w = 2000) ∧
    (∀ (Q T S E C : Type) (env : Purchase.PurchaseEnv Q T S E C) (e0 e1 e2 : E),
      (Purchase.runAttempt env 0).2 = .error e0 →
      (Purchase.runAttempt env 1).2 = .error e1 →
      (Purchase.runAttempt env 2).2 = .error e2 →
      (Purchase.executePurchase (some ()) (some ()) env).2 = .lastError e2) ∧
    (∀ (Q T S E C : Type) (env : Purchase.PurchaseEnv Q T S E C) (e0 : E) (s : S),
      (Purchase.runAttempt env 0).2 = .error e0 →
      (Purchase.runAttempt env 1).2 = .ok s →
      (Purchase.executePurchase (some ()) (some ()) env).2 = .success s) := by
  refine ⟨?_, ?_, ?_, ?_⟩
  · intro Q T S E C env i q h
    rcases Purchase.execLoop_mem env 3 0 none _ h with ⟨j, hj⟩ | habs
    · obtain ⟨rfl, hq⟩ := Purchase.runAttempt_submitted env j i q hj
      exact hq
    · cases habs
  · intro Q T S E C env w h
    rcases Purchase.execLoop_mem env 3 0 none _ h with ⟨j, hj⟩ | heq
    · exact absurd hj (fun hj => Purchase.runAttempt_no_wait env j w hj)
    · injection heq
  · intro Q T S E C env e0 e1 e2 h0 h1 h2
    show (Purchase.execLoop env 3 0 none).2 = .lastError e2
    rw [Purchase.execLoop_fail_step env 2 0 none e0 h0,
      Purchase.execLoop_fail_step env 1 1 (some e0) e1 h1,
      Purchase.execLoop_fail_step env 0 2 (some e1) e2 h2]
    simp [Purchase.execLoop]
  · intro Q T S E C env e0 s h0 h1
    show (Purchase.execLoop env 3 0 none).2 = .success s
    rw [Purchase.execLoop_fail_step env 2 0 none e0 h0,
      Purchase.execLoop_ok_step env 1 1 (some e0) s h1]

/-- C5 witness: an environment whose first submission fails and whose
second attempt succeeds with a fresh quote returns the second
signature. -/
theorem C5_executePurchase_witness :
    (Purchase.executePurchase (some ()) (some ())
      (⟨fun _ => .ok 0, fun i => .ok (10 + i), fun q => .ok q,
        fun t => if t = 10 then .error 5 else .ok 99⟩ :
          Purchase.PurchaseEnv ℕ ℕ ℕ ℕ ℕ)).2 =
      Purchase.PurchaseOutcome.success 99 :=
  C5_executePurchase.2.2.2 ℕ ℕ ℕ ℕ ℕ
    ⟨fun _ => .ok 0, fun i => .ok (10 + i), fun q => .ok q,
      fun t => if t = 10 then .error 5 else .ok 99⟩ 5 99 rfl rfl

/-- C6: `setTradingWallet` fails with an invalid-key-format error and
leaves the previously held wallet unchanged whenever base58 decoding
fails, the decoded length differs from 64 bytes, or keypair
construction rejects the bytes; on success the new keypair replaces
the old wallet in one step and the public key is returned. -/
theorem C6_setTradingWallet :
    (∀ (K : Type) (decode : String → Option (List ℕ))
        (fromSecretKey : List ℕ → Option K) (pubkeyOf : K → String)
        (st : Wallet.WalletSt K) (pk : String),
      ¬ pk.isEmpty = true →
      decode pk.trim = none →
      Wallet.setTradingWallet decode fromSecretKey pubkeyOf st pk =
        (st, .error .badFormat)) ∧
    (∀ (K : Type) (decode : String → Option (List ℕ))
        (fromSecretKey : List ℕ → Option K) (pubkeyOf : K → String)
        (st : Wallet.WalletSt K) (pk : String) (sk : List ℕ),
      ¬ pk.isEmpty = true →
      decode pk.trim = some sk →
      sk.length ≠ 64 →
      Wallet.setTradingWallet decode fromSecretKey pubkeyOf st pk =
        (st, .error (.badLength sk.length))) ∧
    (∀ (K : Type) (decode : String → Option (List ℕ))
        (fromSecretKey : List ℕ → Option K) (pubkeyOf : K → String)
        (st : Wallet.WalletSt K) (pk : String) (sk : List ℕ),
      ¬ pk.isEmpty = true →
      decode pk.trim = some sk →
      sk.length = 64 →
      fromSecretKey sk = none →
      Wallet.setTradingWallet decode fromSecretKey pubkeyOf st pk =
        (st, .error .badKeypair)) ∧
    (∀ (K : Type) (decode : String → Option (List ℕ))
        (fromSecretKey : List ℕ → Option K) (pubkeyOf : K → String)
        (st : Wallet.WalletSt K) (pk : String) (sk : List ℕ) (kp : K),
      ¬ pk.isEmpty = true →
      decode pk.trim = some sk →
      sk.length = 64 →
      fromSecretKey sk = some kp →
      Wallet.setTradingWallet decode fromSecretKey pubkeyOf st pk =
        (⟨some kp⟩, .ok (pubkeyOf kp))) := by
  refine ⟨?_, ?_, ?_, ?_⟩
  · intro K decode fromSecretKey pubkeyOf st pk hne hdec
    simp [Wallet.setTradingWallet, hne, hdec]
  · intro K decode fromSecretKey pubkeyOf st pk sk hne hdec hlen
    simp [Wallet.setTradingWallet, hne, hdec, hlen]
  · intro K decode fromSecretKey pubkeyOf st pk sk hne hdec hlen hkp
    simp [Wallet.setTradingWallet, hne, hdec, hlen, hkp]
  · intro K decode fromSecretKey pubkeyOf st pk sk kp hne hdec hlen hkp
    simp [Wallet.setTradingWallet, hne, hdec, hlen, hkp]

/-- C6 witness: a decoder that yields 63 bytes makes the operation fail
with the length error and leaves the prior wallet in place. -/
theorem C6_setTradingWallet_witness :
    Wallet.setTradingWallet (fun _ => some (List.replicate 63 0))
      (fun _ => (none : Option ℕ)) (fun k => toString k)
      ⟨some 5⟩ "abc" = (⟨some 5⟩, .error (.badLength 63)) := by
  have h := C6_setTradingWallet.2.1 ℕ (fun _ => some (List.replicate 63 0))
    (fun _ => (none : Option ℕ)) (fun k => toString k) ⟨some 5⟩ "abc"
    (List.replicate 63 0) (by decide) rfl (by decide)
  simpa using h

/-- C7: the single-flight initializer moves Idle to Initializing on a
first call (starting exactly one setup), attaches any caller to the
in-flight promise without starting a second setup, is a no-op once
Ready, returns to Idle on failure (so the next call starts setup from
scratch), and a burst of N calls from Idle starts exactly one setup
with every caller bound to the same promise and hence the same
outcome; the Jupiter variant likewise attaches while in flight and
skips setup when already initialized with the same connection. -/
theorem C7_singleFlight :
    (∀ f, SingleFlight.initCall ⟨none, none⟩ f =
      (⟨none, some f⟩, .started f)) ∧
    (∀ c p f, SingleFlight.initCall ⟨c, some p⟩ f =
      (⟨c, some p⟩, .attached p)) ∧
    (∀ f, SingleFlight.initCall ⟨some (), none⟩ f =
      (⟨some (), none⟩, .noop)) ∧
    (∀ s, SingleFlight.settle s true = ⟨some (), none⟩) ∧
    (∀ s, SingleFlight.settle s false = ⟨none, none⟩) ∧
    (∀ s f, SingleFlight.initCall (SingleFlight.settle s false) f =
      (⟨none, some f⟩, .started f)) ∧
    (∀ f rest,
      SingleFlight.runCalls ⟨none, none⟩ (f :: rest) =
        (⟨none, some f⟩, .started f :: rest.map (fun _ => .attached f)) ∧
      SingleFlight.startedCount
        (SingleFlight.runCalls ⟨none, none⟩ (f :: rest)).2 = 1) ∧
    (∀ conn f, SingleFlight.jupInitCall ⟨some conn, none⟩ conn f =
      (⟨some conn, none⟩, .noop)) ∧
    (∀ c p conn f, SingleFlight.jupInitCall ⟨c, some p⟩ conn f =
      (⟨c, some p⟩, .attached p)) := by
  refine ⟨fun f => rfl, fun c p f => rfl, fun f => rfl, fun s => rfl, fun s => rfl,
    fun s f => rfl, ?_, ?_, fun c p conn f => rfl⟩
  · intro f rest
    have hrun : SingleFlight.runCalls ⟨none, none⟩ (f :: rest) =
        (⟨none, some f⟩, .started f :: rest.map (fun _ => .attached f)) := by
      simp [SingleFlight.runCalls, SingleFlight.initCall,
        SingleFlight.runCalls_inflight]
    refine ⟨hrun, ?_⟩
    rw [hrun]
    have hnostart : ∀ l : List ℕ,
        (l.map (fun _ => (SingleFlight.CallRes.attached f))).filter
          (fun r => match r with | .started _ => true | _ => false) = [] := by
      intro l
      induction l with
      | nil => rfl
      | cons x xs ih => simpa using ih
    simp [SingleFlight.startedCount, hnostart]
  · intro conn f
    simp [SingleFlight.jupInitCall]

/-- C8 counterexample: with zero holders, a clean contract and volume
5000, the evaluation returns `isSecure = false` but a risk level that
is not HIGH, refuting the claim that the verdict for an empty holder
set carries risk level HIGH. -/
theorem C8_counterexample :
    (analyzeTokenPure [] (analyzeTokenContractScan "xyz") 5000).isSecure = false ∧
    (analyzeTokenPure [] (analyzeTokenContractScan "xyz") 5000).riskLevel ≠ .HIGH := by
  constructor <;> decide

/-- C8 (amended): with zero holders the distribution analysis returns
percentage 0 and worst-case HIGH concentration without any division,
and the evaluation verdict is `isSecure = false`; the risk level of
the returned analysis, however, comes from the contract heuristics and
need not be HIGH. -/
theorem C8_amended (c : ContractAnalysis) (vol : ℚ) :
    analyzeHolderDistribution [] = ⟨0, 0, .HIGH⟩ ∧
    (analyzeTokenPure [] c vol).isSecure = false ∧
    (analyzeTokenPure [] c vol).maxHolderPercentage = 0 ∧
    (analyzeTokenPure [] c vol).riskLevel = c.riskLevel := by
  refine ⟨rfl, ?_, rfl, rfl⟩
  norm_num [analyzeTokenPure, analyzeHolderDistribution]

/-- C9 counterexample: a holder set containing a negative balance
(representable, since balances are read as signed 64-bit integers)
yields a maximal holder percentage of 150, outside the claimed
interval [0, 100]. -/
theorem C9_counterexample :
    (analyzeHolderDistribution [⟨"a", 3⟩, ⟨"b", -1⟩]).maxHolderPercentage = 150 ∧
    ¬ (analyzeHolderDistribution [⟨"a", 3⟩, ⟨"b", -1⟩]).maxHolderPercentage ≤ 100 := by
  norm_num [analyzeHolderDistribution]

/-- C9 (amended): for every holder set whose balances are all positive
the maximal holder percentage lies in [0, 100], and for every holder
set without restriction the unique-holder count is the number of
distinct addresses (duplicates collapse). -/
theorem C9_amended :
    (∀ holders : List TokenHolder, (∀ h ∈ holders, 0 < h.amount) →
      0 ≤ (analyzeHolderDistribution holders).maxHolderPercentage ∧
      (analyzeHolderDistribution holders).maxHolderPercentage ≤ 100) ∧
    (∀ holders : List TokenHolder,
      (analyzeHolderDistribution holders).uniqueHolders =
        (holders.map (·.address)).toFinset.card) := by
  constructor
  case right =>
    intro holders
    rcases holders with _ | ⟨h0, hs⟩
    · simp [analyzeHolderDistribution]
    · have huniq : (analyzeHolderDistribution (h0 :: hs)).uniqueHolders =
          ((h0 :: hs).map (·.address)).dedup.length := rfl
      rw [huniq]
      exact (List.card_toFinset _).symm
  intro holders hpos
  rcases holders with _ | ⟨h0, hs⟩
  · simp [analyzeHolderDistribution]
  · have hamts : ((h0 :: hs).map (·.amount) : List ℤ) =
        h0.amount :: hs.map (·.amount) := rfl
    have hposAmts : ∀ x ∈ ((h0 :: hs).map (·.amount) : List ℤ), 0 < x := by
      intro x hx
      rw [List.mem_map] at hx
      obtain ⟨h', hmem, hx'⟩ := hx
      exact hx' ▸ hpos h' hmem
    have hMval : (((h0 :: hs).map (·.amount) : List ℤ)).max?.getD 0 =
        (hs.map (·.amount)).foldl max h0.amount := rfl
    have hMmem : (((h0 :: hs).map (·.amount) : List ℤ)).max?.getD 0 ∈
        ((h0 :: hs).map (·.amount) : List ℤ) := by
      rw [hMval, hamts]
      exact foldl_max_mem h0.amount (hs.map (·.amount))
    have hMpos : 0 < (((h0 :: hs).map (·.amount) : List ℤ)).max?.getD 0 :=
      hposAmts _ hMmem
    have hMle : (((h0 :: hs).map (·.amount) : List ℤ)).max?.getD 0 ≤
        (((h0 :: hs).map (·.amount) : List ℤ)).sum :=
      List.single_le_sum (fun x hx => le_of_lt (hposAmts x hx)) _ hMmem
    have hSpos : (0 : ℤ) < (((h0 :: hs).map (·.amount) : List ℤ)).sum :=
      lt_of_lt_of_le hMpos hMle
    have hQ1 : (0 : ℚ) < ((((h0 :: hs).map (·.amount) : List ℤ)).sum : ℚ) := by
      exact_mod_cast hSpos
    have hdiv0 : (0 : ℚ) ≤
        (((((h0 :: hs).map (·.amount) : List ℤ)).max?.getD 0 : ℚ) /
          ((((h0 :: hs).map (·.amount) : List ℤ)).sum : ℚ)) :=
      div_nonneg (by exact_mod_cast le_of_lt hMpos) (le_of_lt hQ1)
    have hdiv1 :
        (((((h0 :: hs).map (·.amount) : List ℤ)).max?.getD 0 : ℚ) /
          ((((h0 :: hs).map (·.amount) : List ℤ)).sum : ℚ)) ≤ 1 :=
      (div_le_one hQ1).mpr (by exact_mod_cast hMle)
    have hpct : (analyzeHolderDistribution (h0 :: hs)).maxHolderPercentage =
        (((((h0 :: hs).map (·.amount) : List ℤ)).max?.getD 0 : ℚ) /
          ((((h0 :: hs).map (·.amount) : List ℤ)).sum : ℚ)) * 100 := rfl
    refine ⟨?_, ?_⟩
    · rw [hpct]
      exact mul_nonneg hdiv0 (by norm_num)
    · rw [hpct]
      have h := mul_le_mul_of_nonneg_right hdiv1 (by norm_num : (0:ℚ) ≤ 100)
      simpa using h

/-- C9 witness: the amended bounds instantiated at a two-holder set
with positive balances, and the distinct-address count instantiated at
a holder set containing a negative balance. -/
theorem C9_amended_witness :
    (0 ≤ (analyzeHolderDistribution [⟨"a", 1⟩, ⟨"b", 3⟩]).maxHolderPercentage ∧
     (analyzeHolderDistribution [⟨"a", 1⟩, ⟨"b", 3⟩]).maxHolderPercentage ≤ 100) ∧
    (analyzeHolderDistribution [⟨"a", 3⟩, ⟨"b", -1⟩]).uniqueHolders =
      (([⟨"a", 3⟩, ⟨"b", -1⟩] : List TokenHolder).map (·.address)).toFinset.card :=
  ⟨C9_amended.1 [⟨"a", 1⟩, ⟨"b", 3⟩] (by decide),
   C9_amended.2 [⟨"a", 3⟩, ⟨"b", -1⟩]⟩

/-- C10: when the holder-account fetch fails, `getTokenHolders` returns
the empty list instead of propagating the error, and the evaluation
built from it proceeds with zero total holders and a verdict of
`isSecure = false`. -/
theorem C10_holderFetchFailure (e : String) (c : ContractAnalysis) (vol : ℚ) :
    getTokenHolders (.error e) = [] ∧
    (analyzeTokenPure (getTokenHolders (.error e)) c vol).totalHolders = 0 ∧
    (analyzeTokenPure (getTokenHolders (.error e)) c vol).isSecure = false := by
  refine ⟨rfl, rfl, ?_⟩
  norm_num [getTokenHolders, analyzeTokenPure, analyzeHolderDistribution]

end Rugwatcher
